import Mathlib

/-!
Verification of the state persistence and rehydration engine described by
the repository's specification, together with the route selection logic of
the application shell (src/src/App.jsx).

The repository ships the engine only through its configuration and call
sites (src/unnamed/part_000 wires `persistReducer`, `persistStore`,
`persistor.purge` from the redux-persist library); the engine itself is not
part of src/.  All engine components below are therefore modelled from the
specification, as marked on each definition.  The App component is
translated directly from src/src/App.jsx.
-/

namespace ReduxPersist

/-- A flat application state record: an ordered list of top-level fields,
each a field name paired with its value. -/
abbrev StateRec := List (String × Nat)

/-- First-match lookup of a key in an association list keyed by strings. -/
def lookupKey {α : Type} : List (String × α) → String → Option α
  | [], _ => none
  | (k2, v) :: rest, k => if k2 = k then some v else lookupKey rest k

/-- Modelled from the spec: whitelist filtering (missing from src/; spec §3,
§4.3).  When a whitelist is configured, only the listed top-level fields are
kept; otherwise the state passes through unchanged. -/
def applyWhitelist (wl : Option (List String)) (s : StateRec) : StateRec :=
  match wl with
  | none => s
  | some l => s.filter (fun p => l.contains p.1)

/-- Modelled from the spec: blacklist filtering (missing from src/; spec §3,
§4.3).  When a blacklist is configured, the listed top-level fields are
dropped; otherwise the state passes through unchanged. -/
def applyBlacklist (bl : Option (List String)) (s : StateRec) : StateRec :=
  match bl with
  | none => s
  | some l => s.filter (fun p => !(l.contains p.1))

/-- Modelled from the spec: a bidirectional transform, an outbound function
applied on persist and an inbound function applied on rehydrate (spec §4.3). -/
structure Transform where
  outb : StateRec → StateRec
  inb : StateRec → StateRec

/-- Modelled from the spec: PersistConfig, the per-node configuration
record (spec §3).  Storage and the merge policy are kept external: storage
is threaded explicitly and the default shallow merge policy is used. -/
structure PersistConfig where
  key : String
  version : Nat
  whitelist : Option (List String)
  blacklist : Option (List String)
  transforms : List Transform

/-- Modelled from the spec: the outbound whitelist/blacklist projection of
a state under a node's configuration (spec §4.3: filtering is applied
outbound before transforms run). -/
def filterState (cfg : PersistConfig) (s : StateRec) : StateRec :=
  applyBlacklist cfg.blacklist (applyWhitelist cfg.whitelist s)

/-- Modelled from the spec: outbound transform application, in registration
order (spec §4.3). -/
def applyOut (ts : List Transform) (s : StateRec) : StateRec :=
  ts.foldl (fun a t => t.outb a) s

/-- Modelled from the spec: inbound transform application, in reverse
registration order (spec §4.3). -/
def applyIn (ts : List Transform) (s : StateRec) : StateRec :=
  ts.reverse.foldl (fun a t => t.inb a) s

/-- Modelled from the spec: the default serializer's encoding of one field,
a length-prefixed field name followed by the value (spec §2: structured
text encoding, byte-oriented; bytes are modelled as a list of naturals). -/
def encodeState : StateRec → List Nat
  | [] => []
  | (k, v) :: rest => k.toList.length :: (k.toList.map Char.toNat ++ v :: encodeState rest)

/-- Rebuild a string from a list of character codes. -/
def stringOfCodes (l : List Nat) : String :=
  String.mk (l.map Char.ofNat)

/-- Modelled from the spec: the default serializer's decoder; fails with a
decode error (`none`) on malformed input (spec §6). -/
def decodeState : List Nat → Option StateRec
  | [] => some []
  | n :: rest =>
    match h : rest.drop n with
    | [] => none
    | v :: rest2 =>
      match decodeState rest2 with
      | none => none
      | some tail => some ((stringOfCodes (rest.take n), v) :: tail)
termination_by l => l.length
decreasing_by
  have h1 : (rest.drop n).length = rest2.length + 1 := by rw [h]; simp
  have h2 : (rest.drop n).length ≤ rest.length := by
    rw [List.length_drop]; omega
  simp only [List.length_cons]
  omega

/-- Modelled from the spec: the on-disk PersistedPayload, a version number
followed by the serialized state (spec §3). -/
def encodePayload (version : Nat) (s : StateRec) : List Nat :=
  version :: encodeState s

/-- Modelled from the spec: decoding of a PersistedPayload into its version
and state. -/
def decodePayload : List Nat → Option (Nat × StateRec)
  | [] => none
  | v :: rest => (decodeState rest).map (fun s => (v, s))

theorem decodeState_encodeState (s : StateRec) :
    decodeState (encodeState s) = some s := by
  induction s with
  | nil => simp [encodeState, decodeState]
  | cons p rest ih =>
    obtain ⟨k, v⟩ := p
    have hlen : (k.toList.map Char.toNat).length = k.toList.length := by
      simp
    have hdrop :
        ((k.toList.map Char.toNat ++ v :: encodeState rest).drop k.toList.length)
          = v :: encodeState rest := by
      rw [← hlen, List.drop_left]
    have htake :
        ((k.toList.map Char.toNat ++ v :: encodeState rest).take k.toList.length)
          = k.toList.map Char.toNat := by
      rw [← hlen, List.take_left]
    have hstr : stringOfCodes (k.toList.map Char.toNat) = k := by
      unfold stringOfCodes
      rw [List.map_map]
      have : (Char.ofNat ∘ Char.toNat) = id := by
        funext c
        exact Char.ofNat_toNat c
      rw [this, List.map_id]
      rfl
    rw [encodeState]
    rw [decodeState]
    split
    next heq =>
      rw [hdrop] at heq
      exact absurd heq (by simp)
    next v1 rest2 heq =>
      rw [hdrop] at heq
      injection heq with h1 h2
      subst h1
      subst h2
      rw [ih]
      rw [htake, hstr]

theorem decodePayload_encodePayload (v : Nat) (s : StateRec) :
    decodePayload (encodePayload v s) = some (v, s) := by
  simp [decodePayload, encodePayload, decodeState_encodeState]

/-- Modelled from the spec: the default merge policy (stateReconciler),
a shallow merge (missing from src/; spec §4.4).  Persisted top-level fields
overwrite matching fields of the initial state; fields present only in the
initial state are kept; fields present only in the persisted state are
dropped. -/
def shallowMerge (initial persisted : StateRec) : StateRec :=
  initial.map (fun p =>
    match lookupKey persisted p.1 with
    | some v => (p.1, v)
    | none => p)

/-- Modelled from the spec: the Migration Manager's step table (missing
from src/; spec §4.2): the registered migration step from version N to
version N + 1, when one is registered. -/
abbrev MigrationTable := Nat → Option (StateRec → StateRec)

/-- Modelled from the spec: the Migration Manager (missing from src/; spec
§4.2).  Equal versions pass through; a lower payload version walks the
ordered chain of registered steps, one per version; a missing step (gap)
is a fatal error, reported as `none`; a higher payload version is accepted
as-is (the documented downgrade choice of this model). -/
def migrateFrom (migs : MigrationTable) (v cur : Nat) (s : StateRec) : Option StateRec :=
  if v < cur then
    match migs v with
    | none => none
    | some f => migrateFrom migs (v + 1) cur (f s)
  else some s
termination_by cur - v
decreasing_by omega

/-- Reference reading of the spec's migration chain: apply the step
functions for versions v, v + 1, ..., cur - 1 in ascending order. -/
def chainApply (stepFun : Nat → StateRec → StateRec) (v cur : Nat) (s : StateRec) : StateRec :=
  (List.range' v (cur - v)).foldl (fun a k => stepFun k a) s

/-- Modelled from the spec: the per-controller rehydration lifecycle flag
(missing from src/; spec §3). -/
inductive RehydrationStatus where
  | BOOTSTRAPPING
  | REHYDRATED
  | FAILED
deriving DecidableEq, Repr

/-- Modelled from the spec: the error taxonomy of the engine (missing from
src/; spec §7). -/
inductive PersistError where
  | STORAGE_READ_ERROR
  | STORAGE_WRITE_ERROR
  | STORAGE_REMOVE_ERROR
  | DECODE_ERROR
  | MIGRATION_GAP_ERROR
deriving DecidableEq, Repr

/-- Bytes as stored by a StorageAdapter. -/
abbrev Bytes := List Nat

/-- Modelled from the spec: a storage backend's contents, a key/value map
from storage keys to byte payloads (spec §6 StorageAdapter contract). -/
abbrev Storage := List (String × Bytes)

/-- Modelled from the spec: StorageAdapter.get — the payload stored under a
key, or absence (spec §6; absence is a valid, non-error state). -/
def storageGet (st : Storage) (k : String) : Option Bytes :=
  lookupKey st k

/-- Modelled from the spec: StorageAdapter.set — store a payload under a
key, replacing any previous payload for that key (spec §6). -/
def storageSet (st : Storage) (k : String) (b : Bytes) : Storage :=
  (k, b) :: st.filter (fun p => p.1 != k)

/-- Modelled from the spec: StorageAdapter.remove, used by purge — drop the
payload stored under a key (spec §4.1, §6). -/
def storageRemove (st : Storage) (k : String) : Storage :=
  st.filter (fun p => p.1 != k)

/-- Modelled from the spec: `persistor.purge` (called in
src/unnamed/part_000 but implemented outside src/): removes the node's
persisted payload from storage and does not touch in-memory state
(spec §4.1). -/
def purge (st : Storage) (cfg : PersistConfig) : Storage :=
  storageRemove st cfg.key

/-- Modelled from the spec: the outbound persist path of one node — the
whitelist/blacklist projection, then the outbound transforms in
registration order, then serialization into a versioned payload
(spec §2 data flow, §4.3). -/
def outboundPath (cfg : PersistConfig) (s : StateRec) : Bytes :=
  encodePayload cfg.version (applyOut cfg.transforms (filterState cfg s))

/-- Modelled from the spec: the inbound rehydrate path of one node —
deserialization, then version migration, then the inbound transforms in
reverse registration order (spec §2 data flow, §4.2, §4.3).  `none` is a
decode or migration failure. -/
def inboundPath (cfg : PersistConfig) (migs : MigrationTable) (b : Bytes) : Option StateRec :=
  match decodePayload b with
  | none => none
  | some (v, s) =>
    match migrateFrom migs v cfg.version s with
    | none => none
    | some s2 => some (applyIn cfg.transforms s2)

/-- Modelled from the spec: bootstrap at the PersistController boundary
(missing from src/; spec §4.1, §7).  The storage read result arrives as an
`Except`: a read error, an absent payload (valid first run) or bytes.
Every read, decode or migration error is caught here: the result is always
a status paired with a state, FAILED keeps the reducer's own initial
state, an absent payload rehydrates with the initial state unchanged, and
a decoded payload is merged into the initial state by the default merge
policy. -/
def bootstrap (cfg : PersistConfig) (migs : MigrationTable)
    (readResult : Except PersistError (Option Bytes)) (initial : StateRec) :
    RehydrationStatus × StateRec :=
  match readResult with
  | .error _ => (.FAILED, initial)
  | .ok none => (.REHYDRATED, initial)
  | .ok (some b) =>
    match inboundPath cfg migs b with
    | none => (.FAILED, initial)
    | some s => (.REHYDRATED, shallowMerge initial s)

/-- Actions flowing through a wrapped reducer: the distinguished REHYDRATE
action carrying a key and a payload, or any other application action. -/
inductive PAction where
  | rehydrate (key : String) (payload : StateRec)
  | app (tag : Nat)

/-- Modelled from the spec: the RehydrationReducer wrapper produced by
`persistReducer` (configured at src/unnamed/part_000 line 52, implemented
outside src/): on a REHYDRATE action whose key matches the node's key it
merges the payload into the underlying reducer's state via the merge
policy; every other action is delegated unchanged (spec §4.5). -/
def persistReducer (cfg : PersistConfig) (reducer : StateRec → PAction → StateRec)
    (s : StateRec) (a : PAction) : StateRec :=
  match a with
  | .rehydrate k payload =>
    if k = cfg.key then shallowMerge s payload else reducer s a
  | .app _ => reducer s a

/-- Controller operations that can touch the lifecycle flag. -/
inductive ControllerEvent where
  | bootstrapDone
  | bootstrapFailed
  | stateChange
  | flushOp
  | purgeOp
  | pauseOp
  | resumeOp
deriving DecidableEq, Repr

/-- Modelled from the spec: how each controller operation moves the
lifecycle flag (missing from src/; spec §3, §4.1): bootstrap completion
resolves BOOTSTRAPPING to a terminal state; no other operation, and no
operation after completion, changes the flag. -/
def statusStep : RehydrationStatus → ControllerEvent → RehydrationStatus
  | .BOOTSTRAPPING, .bootstrapDone => .REHYDRATED
  | .BOOTSTRAPPING, .bootstrapFailed => .FAILED
  | s, _ => s

/-- Run a controller's lifecycle flag over a sequence of operations,
starting from a fresh controller. -/
def runStatus (evs : List ControllerEvent) : RehydrationStatus :=
  evs.foldl statusStep .BOOTSTRAPPING

/-- Modelled from the spec: the write side of a PersistController — the
pending coalesced payload of the current throttle window and the log of
StorageAdapter.set calls performed so far (spec §4.1, §5). -/
structure WriterState where
  pending : Option StateRec
  writes : List Bytes
deriving Repr

/-- A fresh controller write side: nothing pending, nothing written. -/
def initWriter : WriterState :=
  { pending := none, writes := [] }

/-- Modelled from the spec: `onStateChange` (missing from src/; spec §4.1):
within a throttle window it only replaces the pending payload with the
latest state — last-write-wins, no write-queue growth. -/
def onStateChange (w : WriterState) (s : StateRec) : WriterState :=
  { w with pending := some s }

/-- Modelled from the spec: expiry of the throttle window (missing from
src/; spec §4.1, §5): the single debounced write pushes the pending state
through the outbound path; with nothing pending, nothing is written. -/
def fireTimer (cfg : PersistConfig) (w : WriterState) : WriterState :=
  match w.pending with
  | none => w
  | some s => { pending := none, writes := w.writes ++ [outboundPath cfg s] }

/-- Pages the application shell can render (src/src/App.jsx). -/
inductive Page where
  | profile
  | signIn
deriving DecidableEq, Repr

/-- The two route paths declared in src/src/App.jsx. -/
inductive RoutePath where
  | root
  | signin
deriving DecidableEq, Repr

/-- A route element: a rendered page or a Navigate redirect. -/
inductive RouteElement where
  | page (p : Page)
  | navigateTo (p : RoutePath)
deriving DecidableEq, Repr

/-- The element each Route of the App component renders, translated from
src/src/App.jsx lines 10-20: path "/" renders Profile when isLoggedIn and
otherwise navigates to /signin; path "signin" renders SignIn when not
isLoggedIn and otherwise navigates to "/". -/
def routeElement (isLoggedIn : Bool) : RoutePath → RouteElement
  | .root => if isLoggedIn then .page .profile else .navigateTo .signin
  | .signin => if !isLoggedIn then .page .signIn else .navigateTo .root

/-- Follow Navigate redirects until a page is rendered, up to a fuel
bound. -/
def resolveRoute (fuel : Nat) (isLoggedIn : Bool) (p : RoutePath) : Option Page :=
  match fuel with
  | 0 => none
  | fuel2 + 1 =>
    match routeElement isLoggedIn p with
    | .page pg => some pg
    | .navigateTo q => resolveRoute fuel2 isLoggedIn q

/-- Fixture: the identity transform. -/
def idTransform : Transform := { outb := fun s => s, inb := fun s => s }

/-- Fixture: a transform pushing a marker field outbound and popping it
inbound (an inverse pair). -/
def pushA : Transform := { outb := fun s => ("a", 1) :: s, inb := fun s => s.drop 1 }

/-- Fixture: a second push/pop transform. -/
def pushB : Transform := { outb := fun s => ("b", 2) :: s, inb := fun s => s.drop 1 }

/-- Fixture: a node keyed "root" at version 0, whitelisting field "a",
with one identity transform. -/
def cfgRoot : PersistConfig :=
  { key := "root", version := 0, whitelist := some ["a"], blacklist := none,
    transforms := [idTransform] }

/-- Fixture: a bare node keyed "root" at version 2. -/
def cfgV2 : PersistConfig :=
  { key := "root", version := 2, whitelist := none, blacklist := none, transforms := [] }

/-- Fixture: a migration table with steps registered for versions 0 and 1. -/
def migsSteps : MigrationTable := fun k =>
  if k = 0 then some (fun s => ("m0", 0) :: s)
  else if k = 1 then some (fun s => ("m1", 1) :: s)
  else none

/-- Fixture: the step functions of `migsSteps` as a total family. -/
def stepSteps : Nat → StateRec → StateRec := fun k s =>
  if k = 0 then ("m0", 0) :: s else ("m1", 1) :: s

/-- Fixture: a migration table with a gap at version 0. -/
def migsGap : MigrationTable := fun k =>
  if k = 1 then some (fun s => s) else none

/-- Fixture: an empty migration table. -/
def migsNone : MigrationTable := fun _ => none

theorem lookupKey_shallowMerge (i p : StateRec) (k : String) :
    lookupKey (shallowMerge i p) k =
      match lookupKey i k with
      | none => none
      | some v =>
        match lookupKey p k with
        | some w => some w
        | none => some v := by
  induction i with
  | nil => rfl
  | cons q rest ih =>
    obtain ⟨k2, v⟩ := q
    by_cases hk : k2 = k
    · subst hk
      cases hp : lookupKey p k2 <;>
        simp [shallowMerge, lookupKey, hp]
    · cases hp : lookupKey p k2 <;>
        simpa [shallowMerge, lookupKey, hp, hk] using ih

theorem shallowMerge_idem (s p : StateRec) :
    shallowMerge (shallowMerge s p) p = shallowMerge s p := by
  unfold shallowMerge
  rw [List.map_map]
  induction s with
  | nil => rfl
  | cons q rest ih =>
    simp only [List.map_cons, ih]
    cases hp : lookupKey p q.1 <;> simp [Function.comp, hp]

theorem shallowMerge_keys (i p : StateRec) :
    (shallowMerge i p).map Prod.fst = i.map Prod.fst := by
  induction i with
  | nil => rfl
  | cons q rest ih =>
    cases hp : lookupKey p q.1 <;> simp [shallowMerge, hp] <;>
      simpa [shallowMerge] using ih

theorem applyOut_cons (t : Transform) (ts : List Transform) (s : StateRec) :
    applyOut (t :: ts) s = applyOut ts (t.outb s) := rfl

theorem applyOut_concat (t : Transform) (ts : List Transform) (s : StateRec) :
    applyOut (ts ++ [t]) s = t.outb (applyOut ts s) := by
  unfold applyOut
  rw [List.foldl_append]
  rfl

theorem applyIn_cons (t : Transform) (ts : List Transform) (s : StateRec) :
    applyIn (t :: ts) s = t.inb (applyIn ts s) := by
  unfold applyIn
  rw [List.reverse_cons, List.foldl_append]
  rfl

theorem applyIn_concat (t : Transform) (ts : List Transform) (s : StateRec) :
    applyIn (ts ++ [t]) s = applyIn ts (t.inb s) := by
  unfold applyIn
  rw [List.reverse_append]
  rfl

theorem applyIn_applyOut_of_inverse (ts : List Transform) (s : StateRec)
    (h : ∀ t ∈ ts, ∀ x, t.inb (t.outb x) = x) :
    applyIn ts (applyOut ts s) = s := by
  induction ts generalizing s with
  | nil => rfl
  | cons t rest ih =>
    rw [applyOut_cons, applyIn_cons]
    rw [ih (t.outb s) (fun u hu x => h u (List.mem_cons_of_mem t hu) x)]
    exact h t (List.mem_cons_self t rest) s

theorem applyOut_of_id (ts : List Transform) (s : StateRec)
    (h : ∀ t ∈ ts, ∀ x, t.outb x = x) :
    applyOut ts s = s := by
  induction ts generalizing s with
  | nil => rfl
  | cons t rest ih =>
    rw [applyOut_cons, h t (List.mem_cons_self t rest) s]
    exact ih s (fun u hu x => h u (List.mem_cons_of_mem t hu) x)

theorem applyIn_of_id (ts : List Transform) (s : StateRec)
    (h : ∀ t ∈ ts, ∀ x, t.inb x = x) :
    applyIn ts s = s := by
  induction ts generalizing s with
  | nil => rfl
  | cons t rest ih =>
    rw [applyIn_cons, ih s (fun u hu x => h u (List.mem_cons_of_mem t hu) x)]
    exact h t (List.mem_cons_self t rest) s

theorem migrateFrom_self (migs : MigrationTable) (v : Nat) (s : StateRec) :
    migrateFrom migs v v s = some s := by
  unfold migrateFrom
  simp

theorem migrateFrom_chain (d : Nat) :
    ∀ (migs : MigrationTable) (stepFun : Nat → StateRec → StateRec) (v : Nat) (s : StateRec),
      (∀ k, v ≤ k → k < v + d → migs k = some (stepFun k)) →
      migrateFrom migs v (v + d) s = some (chainApply stepFun v (v + d) s) := by
  induction d with
  | zero =>
    intro migs stepFun v s _
    simp [migrateFrom_self, chainApply]
  | succ d ih =>
    intro migs stepFun v s h
    rw [migrateFrom]
    have hv : v < v + (d + 1) := by omega
    rw [if_pos hv, h v (Nat.le_refl v) hv]
    have hshift : v + (d + 1) = (v + 1) + d := by omega
    have hrec := ih migs stepFun (v + 1) (stepFun v s)
      (fun k hk1 hk2 => h k (by omega) (by omega))
    rw [hshift]
    show migrateFrom migs (v + 1) (v + 1 + d) (stepFun v s)
      = some (chainApply stepFun v (v + 1 + d) s)
    rw [hrec]
    unfold chainApply
    have h1 : ((v + 1) + d) - (v + 1) = d := by omega
    have h2 : ((v + 1) + d) - v = d + 1 := by omega
    rw [h1, h2, List.range'_succ, List.foldl_cons]

theorem migrateFrom_gap (d : Nat) :
    ∀ (migs : MigrationTable) (v : Nat) (s : StateRec) (k : Nat),
      v ≤ k → k < v + d → migs k = none →
      migrateFrom migs v (v + d) s = none := by
  induction d with
  | zero =>
    intro migs v s k hk1 hk2 _
    omega
  | succ d ih =>
    intro migs v s k hk1 hk2 hnone
    rw [migrateFrom]
    have hv : v < v + (d + 1) := by omega
    rw [if_pos hv]
    cases hm : migs v with
    | none => rfl
    | some f =>
      have hne : v ≠ k := fun he => by rw [he, hnone] at hm; cases hm
      have hshift : v + (d + 1) = (v + 1) + d := by omega
      rw [hshift]
      exact ih migs (v + 1) (f s) k (by omega) (by omega) hnone

theorem statusStep_rehydrated (e : ControllerEvent) :
    statusStep .REHYDRATED e = .REHYDRATED := by
  cases e <;> rfl

theorem statusStep_failed (e : ControllerEvent) :
    statusStep .FAILED e = .FAILED := by
  cases e <;> rfl

theorem foldl_statusStep_terminal (evs : List ControllerEvent) (s : RehydrationStatus)
    (h : s ≠ .BOOTSTRAPPING) : evs.foldl statusStep s = s := by
  induction evs with
  | nil => rfl
  | cons e rest ih =>
    rw [List.foldl_cons]
    cases s with
    | BOOTSTRAPPING => exact absurd rfl h
    | REHYDRATED => rw [statusStep_rehydrated]; exact ih
    | FAILED => rw [statusStep_failed]; exact ih

theorem foldl_onStateChange_pending (states : List StateRec) (w : WriterState) :
    (states.foldl onStateChange w).pending =
      match states.getLast? with
      | some s => some s
      | none => w.pending := by
  induction states generalizing w with
  | nil => rfl
  | cons s rest ih =>
    rw [List.foldl_cons, ih]
    cases hr : rest.getLast? with
    | some s2 => simp [List.getLast?_cons, hr]
    | none =>
      have : rest = [] := by
        cases rest with
        | nil => rfl
        | cons a l => simp [List.getLast?_cons] at hr
      subst this
      rfl

theorem foldl_onStateChange_writes (states : List StateRec) (w : WriterState) :
    (states.foldl onStateChange w).writes = w.writes := by
  induction states generalizing w with
  | nil => rfl
  | cons s rest ih => rw [List.foldl_cons]; exact ih (onStateChange w s)

theorem storageGet_purge (st : Storage) (cfg : PersistConfig) :
    storageGet (purge st cfg) cfg.key = none := by
  induction st with
  | nil => rfl
  | cons p rest ih =>
    by_cases hp : p.1 = cfg.key
    · simpa [purge, storageRemove, storageGet, hp] using ih
    · simpa [purge, storageRemove, storageGet, lookupKey, hp] using ih

/-- Claim C1: for every state accepted by a node's whitelist/blacklist
configuration, the outbound persist path followed by the inbound rehydrate
path under identity transforms yields exactly the whitelist/blacklist
projection of the state — the round trip loses nothing except the
filtered-out fields. -/
theorem persist_rehydrate_roundtrip (cfg : PersistConfig) (migs : MigrationTable)
    (s : StateRec)
    (hid : ∀ t ∈ cfg.transforms, (∀ x, t.outb x = x) ∧ (∀ x, t.inb x = x)) :
    inboundPath cfg migs (outboundPath cfg s) = some (filterState cfg s) := by
  have hout : applyOut cfg.transforms (filterState cfg s) = filterState cfg s :=
    applyOut_of_id _ _ (fun t ht x => (hid t ht).1 x)
  have hin : ∀ x, applyIn cfg.transforms x = x := fun x =>
    applyIn_of_id _ _ (fun t ht y => (hid t ht).2 y)
  simp only [outboundPath, inboundPath, decodePayload_encodePayload, hout,
    migrateFrom_self, hin]

/-- Witness for C1 at a concrete node, state and migration table. -/
theorem persist_rehydrate_roundtrip_witness :
    inboundPath cfgRoot migsNone (outboundPath cfgRoot [("a", 1), ("b", 2)])
      = some (filterState cfgRoot [("a", 1), ("b", 2)]) := by
  apply persist_rehydrate_roundtrip
  intro t ht
  simp only [cfgRoot, List.mem_singleton] at ht
  subst ht
  exact ⟨fun x => rfl, fun x => rfl⟩

/-- Claim C2: migration with an equal version is a passthrough; a lower
payload version with a complete chain of registered steps applies them in
ascending order; a gap in the chain makes bootstrap end FAILED rather than
skipping it. -/
theorem migration_chain_correct (migs : MigrationTable) (cfg : PersistConfig) :
    (∀ s, migrateFrom migs cfg.version cfg.version s = some s) ∧
    (∀ (stepFun : Nat → StateRec → StateRec) (v : Nat) (s : StateRec),
        v ≤ cfg.version →
        (∀ k, v ≤ k → k < cfg.version → migs k = some (stepFun k)) →
        migrateFrom migs v cfg.version s = some (chainApply stepFun v cfg.version s)) ∧
    (∀ (v : Nat) (s : StateRec) (k : Nat) (initial : StateRec),
        v ≤ k → k < cfg.version → migs k = none →
        bootstrap cfg migs (Except.ok (some (encodePayload v s))) initial
          = (RehydrationStatus.FAILED, initial)) := by
  refine ⟨fun s => migrateFrom_self migs cfg.version s, ?_, ?_⟩
  · intro stepFun v s hv h
    have hres := migrateFrom_chain (cfg.version - v) migs stepFun v s
      (fun k h1 h2 => h k h1 (by omega))
    rwa [show v + (cfg.version - v) = cfg.version by omega] at hres
  · intro v s k initial h1 h2 h3
    have hgap : migrateFrom migs v cfg.version s = none := by
      have hres := migrateFrom_gap (cfg.version - v) migs v s k h1 (by omega) h3
      rwa [show v + (cfg.version - v) = cfg.version by omega] at hres
    simp only [bootstrap, inboundPath, decodePayload_encodePayload, hgap]

/-- Witness for C2: a version-0 payload under currentVersion 2 with steps
for 0 and 1 equals both steps applied in order, and a gap at version 0
makes bootstrap FAILED. -/
theorem migration_chain_correct_witness :
    migrateFrom migsSteps 0 2 [] = some (chainApply stepSteps 0 2 []) ∧
    bootstrap cfgV2 migsGap (Except.ok (some (encodePayload 0 []))) [("x", 7)]
      = (RehydrationStatus.FAILED, [("x", 7)]) := by
  constructor
  · exact (migration_chain_correct migsSteps cfgV2).2.1 stepSteps 0 []
      (by decide) (fun k h1 h2 => by
        have h3 : k < 2 := h2
        interval_cases k <;> rfl)
  · exact (migration_chain_correct migsGap cfgV2).2.2 0 [] 0 [("x", 7)]
      (Nat.le_refl 0) (by decide) rfl

/-- Claim C3: the default merge policy is a shallow merge — a persisted
top-level field overwrites the matching initial field, a field present only
in the initial state is kept unchanged, and a field present only in the
persisted state is dropped (the merged record has exactly the initial
record's fields). -/
theorem shallow_merge_policy (i p : StateRec) (k : String) :
    (∀ w, lookupKey p k = some w → lookupKey i k ≠ none →
        lookupKey (shallowMerge i p) k = some w) ∧
    (lookupKey p k = none → lookupKey (shallowMerge i p) k = lookupKey i k) ∧
    (lookupKey i k = none → lookupKey (shallowMerge i p) k = none) ∧
    (shallowMerge i p).map Prod.fst = i.map Prod.fst := by
  refine ⟨?_, ?_, ?_, shallowMerge_keys i p⟩
  · intro w hp hi
    rw [lookupKey_shallowMerge]
    cases hik : lookupKey i k with
    | none => exact absurd hik hi
    | some v => simp [hp]
  · intro hp
    rw [lookupKey_shallowMerge]
    cases hik : lookupKey i k <;> simp [hp]
  · intro hi
    rw [lookupKey_shallowMerge, hi]

/-- Witness for C3 on concrete records: "a" is overwritten, "b" survives,
"c" (persisted-only) is dropped. -/
theorem shallow_merge_policy_witness :
    lookupKey (shallowMerge [("a", 1), ("b", 2)] [("a", 9), ("c", 3)]) "a" = some 9 ∧
    lookupKey (shallowMerge [("a", 1), ("b", 2)] [("a", 9), ("c", 3)]) "b" = some 2 ∧
    lookupKey (shallowMerge [("a", 1), ("b", 2)] [("a", 9), ("c", 3)]) "c" = none := by
  refine ⟨(shallow_merge_policy _ _ _).1 9 (by decide) (by decide), ?_, ?_⟩
  · rw [(shallow_merge_policy [("a", 1), ("b", 2)] [("a", 9), ("c", 3)] "b").2.1 (by decide)]
    decide
  · exact (shallow_merge_policy _ _ _).2.2.1 (by decide)

/-- Claim C4: the persist path applies outbound transforms in registration
order (first registered first, last registered last) and the rehydrate path
applies inbound transforms in reverse registration order (last registered
first, first registered last); with inverse pairs this ordering makes the
whole pipeline round-trip. -/
theorem transform_pipeline_order :
    (∀ (t : Transform) (ts : List Transform) (s : StateRec),
        applyOut (t :: ts) s = applyOut ts (t.outb s) ∧
        applyOut (ts ++ [t]) s = t.outb (applyOut ts s) ∧
        applyIn (t :: ts) s = t.inb (applyIn ts s) ∧
        applyIn (ts ++ [t]) s = applyIn ts (t.inb s)) ∧
    (∀ (ts : List Transform) (s : StateRec),
        (∀ t ∈ ts, ∀ x, t.inb (t.outb x) = x) →
        applyIn ts (applyOut ts s) = s) :=
  ⟨fun t ts s =>
    ⟨applyOut_cons t ts s, applyOut_concat t ts s,
     applyIn_cons t ts s, applyIn_concat t ts s⟩,
   fun ts s h => applyIn_applyOut_of_inverse ts s h⟩

/-- Witness for C4 on a concrete two-transform pipeline of inverse pairs. -/
theorem transform_pipeline_order_witness :
    applyOut ([pushA] ++ [pushB]) [] = pushB.outb (applyOut [pushA] []) ∧
    applyIn [pushA, pushB] (applyOut [pushA, pushB] []) = [] := by
  constructor
  · exact ((transform_pipeline_order.1 pushB [pushA] []).2.1)
  · apply transform_pipeline_order.2
    intro t ht x
    simp only [List.mem_cons, List.mem_singleton, List.not_mem_nil, or_false] at ht
    rcases ht with rfl | rfl <;> rfl

/-- Claim C5: rehydration is idempotent — dispatching the REHYDRATE action
addressed to a node twice with the same payload yields the same state as
dispatching it once. -/
theorem rehydrate_idempotent (cfg : PersistConfig)
    (reducer : StateRec → PAction → StateRec) (s p : StateRec) (k : String)
    (hk : k = cfg.key) :
    persistReducer cfg reducer
        (persistReducer cfg reducer s (.rehydrate k p)) (.rehydrate k p)
      = persistReducer cfg reducer s (.rehydrate k p) := by
  subst hk
  simp [persistReducer, shallowMerge_idem]

/-- Witness for C5 at a concrete node, payload and base reducer. -/
theorem rehydrate_idempotent_witness :
    persistReducer cfgV2 (fun s _ => s)
        (persistReducer cfgV2 (fun s _ => s) [("x", 1)] (.rehydrate "root" [("x", 5)]))
        (.rehydrate "root" [("x", 5)])
      = persistReducer cfgV2 (fun s _ => s) [("x", 1)] (.rehydrate "root" [("x", 5)]) :=
  rehydrate_idempotent cfgV2 (fun s _ => s) [("x", 1)] [("x", 5)] "root" rfl

/-- Claim C6: a controller's RehydrationStatus starts at BOOTSTRAPPING,
and once it reaches REHYDRATED or FAILED no sequence of controller
operations changes it again; no operation ever moves any status back to
BOOTSTRAPPING from a terminal state. -/
theorem rehydration_status_lifecycle :
    runStatus [] = RehydrationStatus.BOOTSTRAPPING ∧
    (∀ evs more, runStatus evs = RehydrationStatus.REHYDRATED →
        runStatus (evs ++ more) = RehydrationStatus.REHYDRATED) ∧
    (∀ evs more, runStatus evs = RehydrationStatus.FAILED →
        runStatus (evs ++ more) = RehydrationStatus.FAILED) ∧
    (∀ s e, statusStep s e = RehydrationStatus.BOOTSTRAPPING →
        s = RehydrationStatus.BOOTSTRAPPING) := by
  refine ⟨rfl, ?_, ?_, ?_⟩
  · intro evs more h
    unfold runStatus at h ⊢
    rw [List.foldl_append, h]
    exact foldl_statusStep_terminal more _ (by decide)
  · intro evs more h
    unfold runStatus at h ⊢
    rw [List.foldl_append, h]
    exact foldl_statusStep_terminal more _ (by decide)
  · intro s e h
    cases s with
    | BOOTSTRAPPING => rfl
    | REHYDRATED => rw [statusStep_rehydrated] at h; cases h
    | FAILED => rw [statusStep_failed] at h; cases h

/-- Witness for C6: after a successful bootstrap, later purge and failure
events leave the status REHYDRATED. -/
theorem rehydration_status_lifecycle_witness :
    runStatus ([ControllerEvent.bootstrapDone]
        ++ [ControllerEvent.purgeOp, ControllerEvent.bootstrapFailed])
      = RehydrationStatus.REHYDRATED :=
  rehydration_status_lifecycle.2.1 [ControllerEvent.bootstrapDone]
    [ControllerEvent.purgeOp, ControllerEvent.bootstrapFailed] rfl

/-- Claim C7: a burst of N ≥ 1 state changes within one throttle window
produces exactly one storage write, whose bytes are the outbound
serialization of the last state of the burst. -/
theorem debounce_single_write (cfg : PersistConfig) (states : List StateRec)
    (slast : StateRec) (h : states.getLast? = some slast) :
    fireTimer cfg (states.foldl onStateChange initWriter)
      = { pending := none, writes := [outboundPath cfg slast] } := by
  have hp : (states.foldl onStateChange initWriter).pending = some slast := by
    rw [foldl_onStateChange_pending, h]
  have hw := foldl_onStateChange_writes states initWriter
  unfold fireTimer
  rw [hp, hw]
  rfl

/-- Witness for C7: a burst of two changes yields one write of the last
state. -/
theorem debounce_single_write_witness :
    fireTimer cfgV2 ([[("x", 1)], [("x", 2)]].foldl onStateChange initWriter)
      = { pending := none, writes := [outboundPath cfgV2 [("x", 2)]] } :=
  debounce_single_write cfgV2 [[("x", 1)], [("x", 2)]] [("x", 2)] rfl

/-- Claim C8: every storage read, decode or migration error during
bootstrap is caught at the controller boundary: bootstrap always returns a
status/state pair, the status is FAILED for each error class, and whenever
the status is FAILED the in-memory state is the reducer's own initial
state. -/
theorem bootstrap_fail_open (cfg : PersistConfig) (migs : MigrationTable)
    (initial : StateRec) :
    (∀ e, bootstrap cfg migs (Except.error e) initial
        = (RehydrationStatus.FAILED, initial)) ∧
    (∀ b, decodePayload b = none →
        bootstrap cfg migs (Except.ok (some b)) initial
          = (RehydrationStatus.FAILED, initial)) ∧
    (∀ b v s, decodePayload b = some (v, s) →
        migrateFrom migs v cfg.version s = none →
        bootstrap cfg migs (Except.ok (some b)) initial
          = (RehydrationStatus.FAILED, initial)) ∧
    (∀ r, (bootstrap cfg migs r initial).1 = RehydrationStatus.FAILED →
        (bootstrap cfg migs r initial).2 = initial) := by
  refine ⟨fun e => rfl, ?_, ?_, ?_⟩
  · intro b hb
    simp [bootstrap, inboundPath, hb]
  · intro b v s hb hm
    simp [bootstrap, inboundPath, hb, hm]
  · intro r
    cases r with
    | error e => intro _; rfl
    | ok ob =>
      cases ob with
      | none => intro h; simp [bootstrap] at h
      | some b =>
        intro h
        simp only [bootstrap]
        cases hib : inboundPath cfg migs b with
        | none => rfl
        | some s2 =>
          exfalso
          simp [bootstrap, hib] at h

/-- Witness for C8: a read error, undecodable bytes and a migration gap
each bootstrap to FAILED with the initial state kept. -/
theorem bootstrap_fail_open_witness :
    bootstrap cfgV2 migsNone (Except.error PersistError.STORAGE_READ_ERROR) [("x", 1)]
      = (RehydrationStatus.FAILED, [("x", 1)]) ∧
    bootstrap cfgV2 migsNone (Except.ok (some [])) [("x", 1)]
      = (RehydrationStatus.FAILED, [("x", 1)]) ∧
    bootstrap cfgV2 migsNone (Except.ok (some (encodePayload 1 []))) [("x", 1)]
      = (RehydrationStatus.FAILED, [("x", 1)]) := by
  refine ⟨(bootstrap_fail_open cfgV2 migsNone [("x", 1)]).1 _, ?_, ?_⟩
  · exact (bootstrap_fail_open cfgV2 migsNone [("x", 1)]).2.1 [] rfl
  · exact (bootstrap_fail_open cfgV2 migsNone [("x", 1)]).2.2.1 (encodePayload 1 []) 1 []
      (decodePayload_encodePayload 1 []) (by simp [migrateFrom, migsNone, cfgV2])

/-- Claim C9: after purge empties the node's storage key, a fresh
bootstrap against the now-empty store completes REHYDRATED with the
reducer's own initial state — the absent payload is a valid first-run
condition and the merge is a no-op, not a failure. -/
theorem purge_then_bootstrap (st : Storage) (cfg : PersistConfig)
    (migs : MigrationTable) (initial : StateRec) :
    bootstrap cfg migs (Except.ok (storageGet (purge st cfg) cfg.key)) initial
      = (RehydrationStatus.REHYDRATED, initial) := by
  rw [storageGet_purge]
  rfl

/-- Claim C10: the page the App component renders is fully determined by
state.isLoggedIn — when truthy, both "/" and "signin" resolve to Profile
("signin" redirecting to "/"); when falsy, both resolve to SignIn ("/"
redirecting to "/signin") — so exactly one of Profile or SignIn is
reachable for a given value of isLoggedIn. -/
theorem app_page_by_isLoggedIn :
    (∀ (isLoggedIn : Bool) (p : RoutePath),
        resolveRoute 2 isLoggedIn p
          = some (if isLoggedIn then Page.profile else Page.signIn)) ∧
    routeElement true RoutePath.signin = RouteElement.navigateTo RoutePath.root ∧
    routeElement false RoutePath.root = RouteElement.navigateTo RoutePath.signin := by
  refine ⟨?_, rfl, rfl⟩
  intro b p
  cases b <;> cases p <;> rfl

end ReduxPersist
